import Mathlib

/-!
Verification of the detection core of `cloud_slrm.py` (Cloud SLRM signal bot).

The embedding models the pure detection pipeline of the source file:
reference-level computation (`compute_prev_day_levels`), the DST helpers
(`second_sunday_of_march`, `first_sunday_of_november`, `is_us_dst`), the
sweep-and-reclaim detector (`detect_signals`), and the per-candidate
deduplication loop of `run_once`.

Modelling conventions:
* Prices are `Option ℚ`: `none` stands for the IEEE NaN that pandas/numpy
  produce for missing data.  All comparisons on prices follow the
  numpy/pandas semantics: any comparison involving NaN is `false`,
  arithmetic involving NaN yields NaN, `numpy` max/min propagate NaN while
  `pandas` max/min skip NaN.
* Timestamps are integers counting minutes in the fixed IST timezone (the
  source converts every series to `Asia/Kolkata` before detection, and IST
  has no DST transitions, so instants are in order-preserving bijection with
  minute counts).  The calendar date of a timestamp is its floor-division
  by 1440, and calendar dates are day numbers relative to 1970-01-01, with
  civil (year, month, day) conversions implementing the standard Gregorian
  calendar algorithms so that the US-DST rule of the source can be stated.
-/

namespace CloudSlrm

/-- A price value: `some q` is the rational q, `none` is NaN. -/
abbrev Px := Option ℚ

/-- Addition on ℚ written with `mkRat` (so that closed terms reduce);
proven equal to `+` in `qadd_eq`. -/
def qadd (a b : ℚ) : ℚ := mkRat (a.num * b.den + b.num * a.den) (a.den * b.den)

/-- Subtraction on ℚ written with `mkRat`; proven equal to `-` in `qsub_eq`. -/
def qsub (a b : ℚ) : ℚ := mkRat (a.num * b.den - b.num * a.den) (a.den * b.den)

/-- Multiplication on ℚ written with `mkRat`; proven equal to `*` in `qmul_eq`. -/
def qmul (a b : ℚ) : ℚ := mkRat (a.num * b.num) (a.den * b.den)

/-- Binary maximum on ℚ by cases; proven equal to `max` in `qmax_eq`. -/
def qmax (a b : ℚ) : ℚ := if a ≤ b then b else a

/-- Binary minimum on ℚ by cases; proven equal to `min` in `qmin_eq`. -/
def qmin (a b : ℚ) : ℚ := if a ≤ b then a else b

theorem qadd_eq (a b : ℚ) : qadd a b = a + b := by
  conv_rhs => rw [← Rat.num_div_den a, ← Rat.num_div_den b]
  rw [qadd, Rat.mkRat_eq_div,
    div_add_div _ _ (by exact_mod_cast a.den_nz) (by exact_mod_cast b.den_nz)]
  push_cast
  ring_nf

theorem qsub_eq (a b : ℚ) : qsub a b = a - b := by
  conv_rhs => rw [← Rat.num_div_den a, ← Rat.num_div_den b]
  rw [qsub, Rat.mkRat_eq_div,
    div_sub_div _ _ (by exact_mod_cast a.den_nz) (by exact_mod_cast b.den_nz)]
  push_cast
  ring_nf

theorem qmul_eq (a b : ℚ) : qmul a b = a * b := by
  conv_rhs => rw [← Rat.num_div_den a, ← Rat.num_div_den b]
  rw [qmul, Rat.mkRat_eq_div, div_mul_div_comm]
  push_cast
  ring_nf

theorem qmax_eq (a b : ℚ) : qmax a b = max a b := by rw [qmax, max_def]

theorem qmin_eq (a b : ℚ) : qmin a b = min a b := by rw [qmin, min_def]

/-- Strict less-than with numpy semantics: false if either side is NaN. -/
def pLt : Px → Px → Bool
  | some a, some b => decide (a < b)
  | _, _ => false

/-- Strict greater-than with numpy semantics: false if either side is NaN. -/
def pGt : Px → Px → Bool
  | some a, some b => decide (b < a)
  | _, _ => false

/-- Non-strict less-or-equal with numpy semantics: false if either side is NaN. -/
def pLe : Px → Px → Bool
  | some a, some b => decide (a ≤ b)
  | _, _ => false

/-- Non-strict greater-or-equal with numpy semantics: false if either side is NaN. -/
def pGe : Px → Px → Bool
  | some a, some b => decide (b ≤ a)
  | _, _ => false

/-- Subtraction on prices; NaN-propagating. -/
def pSub : Px → Px → Px
  | some a, some b => some (qsub a b)
  | _, _ => none

/-- Addition on prices; NaN-propagating. -/
def pAdd : Px → Px → Px
  | some a, some b => some (qadd a b)
  | _, _ => none

/-- Multiplication on prices; NaN-propagating. -/
def pMul : Px → Px → Px
  | some a, some b => some (qmul a b)
  | _, _ => none

/-- `numpy.ndarray.max` over a non-empty list: NaN-propagating
(the source only calls it on non-empty slices; on `[]` we return NaN). -/
def npMax : List Px → Px
  | [] => none
  | x :: xs =>
    xs.foldl (fun a b => match a, b with
      | some a, some b => some (qmax a b)
      | _, _ => none) x

/-- `numpy.ndarray.min` over a non-empty list: NaN-propagating. -/
def npMin : List Px → Px
  | [] => none
  | x :: xs =>
    xs.foldl (fun a b => match a, b with
      | some a, some b => some (qmin a b)
      | _, _ => none) x

/-- `pandas.Series.max` (skipna): maximum of the non-NaN entries, NaN if none. -/
def pdMax (xs : List Px) : Px :=
  match xs.filterMap id with
  | [] => none
  | v :: vs => some (vs.foldl qmax v)

/-- `pandas.Series.min` (skipna): minimum of the non-NaN entries, NaN if none. -/
def pdMin (xs : List Px) : Px :=
  match xs.filterMap id with
  | [] => none
  | v :: vs => some (vs.foldl qmin v)

/-! ## Calendar arithmetic (the DST helpers of the source) -/

/-- Day count of a Gregorian civil date, relative to 1970-01-01
(Howard Hinnant's `days_from_civil`, written with floor division). -/
def daysFromCivil (y m d : ℤ) : ℤ :=
  let y' := y - (if m ≤ 2 then 1 else 0)
  let era := y' / 400
  let yoe := y' - era * 400
  let mp := (m + 9) % 12
  let doy := (153 * mp + 2) / 5 + d - 1
  let doe := yoe * 365 + yoe / 4 - yoe / 100 + doy
  era * 146097 + doe - 719468

/-- Civil (year, month, day) of a day number (Hinnant's `civil_from_days`). -/
def civilFromDays (z : ℤ) : ℤ × ℤ × ℤ :=
  let z' := z + 719468
  let era := z' / 146097
  let doe := z' - era * 146097
  let yoe := (doe - doe / 1460 + doe / 36524 - doe / 146096) / 365
  let y := yoe + era * 400
  let doy := doe - (365 * yoe + yoe / 4 - yoe / 100)
  let mp := (5 * doy + 2) / 153
  let d := doy - (153 * mp + 2) / 5 + 1
  let m := mp + (if mp < 10 then 3 else -9)
  (y + (if m ≤ 2 then 1 else 0), m, d)

/-- Year of a day number. -/
def yearOfDay (z : ℤ) : ℤ := (civilFromDays z).1

/-- Python `date.weekday()` of a day number: Monday = 0 … Sunday = 6
(1970-01-01 is a Thursday, weekday 3). -/
def weekday (z : ℤ) : ℤ := (z + 3) % 7

/-- `second_sunday_of_march(y)`: the first day on/after March 8 whose
weekday is Sunday, as computed by the source
(`d = date(y,3,8); d + ((6 - d.weekday()) % 7) days`). -/
def secondSundayOfMarch (y : ℤ) : ℤ :=
  let d := daysFromCivil y 3 8
  d + (6 - weekday d) % 7

/-- `first_sunday_of_november(y)`: the first day on/after November 1 whose
weekday is Sunday. -/
def firstSundayOfNovember (y : ℤ) : ℤ :=
  let d := daysFromCivil y 11 1
  d + (6 - weekday d) % 7

/-- `is_us_dst(d)`: DST is active from the second Sunday of March
(inclusive) up to the first Sunday of November (exclusive). -/
def isUsDst (d : ℤ) : Bool :=
  decide (secondSundayOfMarch (yearOfDay d) ≤ d ∧ d < firstSundayOfNovember (yearOfDay d))

/-! ## Bars, reference levels and bias -/

/-- Minutes per calendar day. -/
def minutesPerDay : ℤ := 1440

/-- One OHLC bar of a series.  `t` is the IST timestamp in minutes; the
`Open`/`Volume` columns of the source frames are unused by the detection
logic and omitted. -/
structure Bar where
  t : ℤ
  high : Px
  low : Px
  close : Px
deriving DecidableEq, Repr

instance : Inhabited Bar := ⟨⟨0, none, none, none⟩⟩

/-- Calendar date (day number) of a timestamp: `t.date()` in IST. -/
def dateOf (t : ℤ) : ℤ := t / minutesPerDay

/-- `df[df.index.date == d]`: the bars of a series falling on date `d`,
in series order. -/
def barsOnDate (df : List Bar) (d : ℤ) : List Bar :=
  df.filter (fun b => decide (dateOf b.t = d))

/-- The prior-day levels record: `{"PDH": …, "PDL": …}`. -/
structure Levels where
  PDH : Px
  PDL : Px
deriving DecidableEq, Repr

/-- `compute_prev_day_levels(df15)[d]`: the source builds the dict over the
dates appearing in the reference series and stores an entry for `d` exactly
when bars dated `d - 1` exist; the values are the pandas (skipna) max of
`High` and min of `Low` over those bars. -/
def lookupLevels (df15 : List Bar) (d : ℤ) : Option Levels :=
  if d ∈ df15.map (fun b => dateOf b.t) then
    let prev := barsOnDate df15 (d - 1)
    if prev.isEmpty then none
    else some ⟨pdMax (prev.map (fun b => b.high)), pdMin (prev.map (fun b => b.low))⟩
  else none

/-- Directional bias of a date. -/
inductive Bias | bull | bear | neutral
deriving DecidableEq, Repr

/-- The bias rule of `detect_signals`: neutral when fewer than 3 reference
bars fall on the date, else bull iff `Close.iloc[-1] - Close.iloc[-3] > 0`,
else bear. -/
def biasFor (df15 : List Bar) (day : ℤ) : Bias :=
  let day15 := barsOnDate df15 day
  if day15.length ≥ 3 then
    let cs := day15.map (fun b => b.close)
    if pGt (pSub (cs.getD (cs.length - 1) none) (cs.getD (cs.length - 3) none)) (some 0)
    then .bull else .bear
  else .neutral

/-! ## The sweep-and-reclaim detector -/

/-- Trade direction. -/
inductive Dir | buy | sell
deriving DecidableEq, Repr

/-- An emitted trade candidate (the dict appended to `trades`). -/
structure Trade where
  entry_time : ℤ
  direction : Dir
  entry : Px
  sl : Px
  tp : Px
  day : ℤ
deriving DecidableEq, Repr

/-- `RECLAIM_LOOKAHEAD` constant of the source. -/
def RECLAIM_LOOKAHEAD : ℕ := 3

/-- `TP_MULT` constant of the source. -/
def TP_MULT : ℚ := 3

/-- Sweep test at one bar: for buy, `low < level`; for sell, `high > level`. -/
def sweepCond (dir : Dir) (L : ℚ) (b : Bar) : Bool :=
  match dir with
  | .buy => pLt b.low (some L)
  | .sell => pGt b.high (some L)

/-- Reclaim test at one bar: for buy, `close > level`; for sell, `close < level`. -/
def reclaimCond (dir : Dir) (L : ℚ) (b : Bar) : Bool :=
  match dir with
  | .buy => pGt b.close (some L)
  | .sell => pLt b.close (some L)

/-- First index in `[a, b]` (inclusive) satisfying `p`
(`np.where(...)[0][0]` over a slice). -/
def findFirstIdx (p : ℕ → Bool) (a b : ℕ) : Option ℕ :=
  (List.range' a (b + 1 - a)).find? p

/-- The pre-sweep slice of highs, `highs[max(0, si-3):si]`. -/
def preHighs (w : List Bar) (si : ℕ) : List Px :=
  (List.range' (si - 3) (si - (si - 3))).map (fun j => (w.getD j default).high)

/-- The pre-sweep slice of lows, `lows[max(0, si-3):si]`. -/
def preLows (w : List Bar) (si : ℕ) : List Px :=
  (List.range' (si - 3) (si - (si - 3))).map (fun j => (w.getD j default).low)

/-- One iteration of the `for si in sweep_idxs[::-1]` loop of
`detect_signals`: all the `continue` guards, and the candidate built when
every check passes. -/
def trySweep (w : List Bar) (startT endT day : ℤ) (dir : Dir) (L : ℚ) (si : ℕ) :
    Option Trade :=
  let n := w.length
  let sr := si + 1
  let er := min (si + RECLAIM_LOOKAHEAD) (n - 1)
  if er < sr then none else
  match findFirstIdx (fun j => reclaimCond dir L (w.getD j default)) sr er with
  | none => none
  | some ri =>
    let rt := (w.getD ri default).t
    if startT ≤ rt ∧ rt ≤ endT then
      if (match dir with
          | .buy => (preHighs w si).isEmpty
          | .sell => (preLows w si).isEmpty) then none else
      let c := (w.getD ri default).close
      if (match dir with
          | .buy => pLe c (npMax (preHighs w si))
          | .sell => pGe c (npMin (preLows w si))) then none else
      let entry := c
      let sl := match dir with
        | .buy => (w.getD si default).low
        | .sell => (w.getD si default).high
      let dist := match dir with
        | .buy => pSub entry sl
        | .sell => pSub sl entry
      if pLe dist (some 0) then none else
      let tp := match dir with
        | .buy => pAdd entry (pMul (some TP_MULT) dist)
        | .sell => pSub entry (pMul (some TP_MULT) dist)
      some ⟨rt, dir, entry, sl, tp, day⟩
    else none

/-- The per-direction scan of `detect_signals`: skip NaN levels, collect the
sweep indices `np.where(...)`, and walk them most-recent-first, stopping at
the first qualifying one. -/
def detectDir (w : List Bar) (startT endT day : ℤ) (dir : Dir) (level : Px) :
    Option Trade :=
  match level with
  | none => none
  | some L =>
    let sweeps := (List.range w.length).filter (fun i => sweepCond dir L (w.getD i default))
    sweeps.reverse.findSome? (trySweep w startT endT day dir L)

/-- Session-window start instant for a date (IST minutes):
19:00 under US DST, 20:00 otherwise. -/
def sessionStart (day : ℤ) : ℤ :=
  day * minutesPerDay + (if isUsDst day then 19 * 60 else 20 * 60)

/-- Session-window end instant for a date: 21:00 under US DST, 22:00 otherwise. -/
def sessionEnd (day : ℤ) : ℤ :=
  day * minutesPerDay + (if isUsDst day then 21 * 60 else 22 * 60)

/-- The scanned bars of a date: the scan series restricted to the session
window padded by 60 minutes on each side. -/
def windowBars (df1 : List Bar) (day : ℤ) : List Bar :=
  df1.filter (fun b =>
    decide (sessionStart day - 60 ≤ b.t) && decide (b.t ≤ sessionEnd day + 60))

/-- The level the detector uses for each direction: `PDL` for buy, `PDH` for sell. -/
def levelFor (lv : Levels) : Dir → Px
  | .buy => lv.PDL
  | .sell => lv.PDH

/-- The direction attempt order of a date: buy first unless the bias is bear. -/
def orderFor (lv : Levels) : Bias → List (Dir × Px)
  | .bear => [(.sell, lv.PDH), (.buy, lv.PDL)]
  | _ => [(.buy, lv.PDL), (.sell, lv.PDH)]

/-- The body of the `for day in dates` loop of `detect_signals`. -/
def processDay (df1 df15 : List Bar) (day : ℤ) : List Trade :=
  match lookupLevels df15 day with
  | none => []
  | some lv =>
    let w := windowBars df1 day
    if w.isEmpty then [] else
    (orderFor lv (biasFor df15 day)).filterMap
      (fun p => detectDir w (sessionStart day) (sessionEnd day) day p.1 p.2)

/-- Insert into an ascending list of day numbers. -/
def insertSorted (x : ℤ) : List ℤ → List ℤ
  | [] => [x]
  | y :: ys => if x ≤ y then x :: y :: ys else y :: insertSorted x ys

/-- Ascending sort of day numbers (Python `sorted`). -/
def sortDays (l : List ℤ) : List ℤ := l.foldr insertSorted []

/-- `sorted({t.date() for t in df1.index})`: the distinct dates of the scan
series in ascending order. -/
def scanDates (df1 : List Bar) : List ℤ :=
  sortDays ((df1.map (fun b => dateOf b.t)).dedup)

/-- `detect_signals(df1, df15)`: the full detection pass. -/
def detectSignals (df1 df15 : List Bar) : List Trade :=
  (scanDates df1).flatMap (fun day => processDay df1 df15 day)

/-! ## Deduplication (`run_once`) -/

/-- A candidate identity: the dedup key is derived from
`(entry_time, direction, entry)` (`f"{entry_time}_{direction}_{entry}"`). -/
def sigId (c : Trade) : ℤ × Dir × Px := (c.entry_time, c.direction, c.entry)

/-- State of the persisted `signals.csv` as seen by the dedup check:
missing, unparseable, or a readable table of recorded identities. -/
inductive CsvState
  | absent
  | corrupt
  | table (ids : List (ℤ × Dir × Px))
deriving DecidableEq, Repr

/-- The duplicate check of `run_once`: a missing file and an unparseable
file (the `except` branch) both leave `already = False`. -/
def alreadySeen : CsvState → (ℤ × Dir × Px) → Bool
  | .absent, _ => false
  | .corrupt, _ => false
  | .table ids, i => decide (i ∈ ids)

/-- Appending a signal row: creates the file (with header) when absent,
leaves an unparseable file unparseable, extends a readable table. -/
def appendRow : CsvState → (ℤ × Dir × Px) → CsvState
  | .absent, i => .table [i]
  | .corrupt, _ => .corrupt
  | .table ids, i => .table (ids ++ [i])

/-- The candidate loop of `run_once`: returns the candidates that were
notified/appended (the novel ones) and the final store state. -/
def runPass : CsvState → List Trade → List Trade × CsvState
  | f, [] => ([], f)
  | f, c :: cs =>
    if alreadySeen f (sigId c) then runPass f cs
    else
      let r := runPass (appendRow f (sigId c)) cs
      (c :: r.1, r.2)

/-! ## Helper lemmas -/

/-- `pLt` succeeds only on two real values in strict order. -/
theorem pLt_eq_true_iff {a b : Px} :
    pLt a b = true ↔ ∃ x y, a = some x ∧ b = some y ∧ x < y := by
  cases a <;> cases b <;> simp [pLt]

/-- `pGt` succeeds only on two real values in strict order. -/
theorem pGt_eq_true_iff {a b : Px} :
    pGt a b = true ↔ ∃ x y, a = some x ∧ b = some y ∧ y < x := by
  cases a <;> cases b <;> simp [pGt]

/-- On two real values, a failed `pLe` is a strict reverse inequality. -/
theorem pLe_some_eq_false_iff {x y : ℚ} :
    pLe (some x) (some y) = false ↔ y < x := by
  simp [pLe]

/-- On two real values, a failed `pGe` is a strict reverse inequality. -/
theorem pGe_some_eq_false_iff {x y : ℚ} :
    pGe (some x) (some y) = false ↔ x < y := by
  simp [pGe]

/-- Specification of `find?` over `range'`: the result is the first index in
the range satisfying the predicate. -/
theorem find?_range'_spec :
    ∀ (cnt a : ℕ) {p : ℕ → Bool} {r : ℕ},
      (List.range' a cnt).find? p = some r →
      a ≤ r ∧ r < a + cnt ∧ p r = true ∧ ∀ j, a ≤ j → j < r → p j = false := by
  intro cnt
  induction cnt with
  | zero => intro a p r h; simp [List.range'] at h
  | succ n ih =>
    intro a p r h
    rw [List.range'_succ] at h
    by_cases hpa : p a = true
    · rw [List.find?_cons_of_pos _ hpa] at h
      cases h
      exact ⟨Nat.le_refl _, by omega, hpa, fun j h1 h2 => absurd (Nat.lt_of_le_of_lt h1 h2) (Nat.lt_irrefl _)⟩
    · rw [List.find?_cons_of_neg _ hpa] at h
      obtain ⟨h1, h2, h3, h4⟩ := ih (a + 1) h
      refine ⟨by omega, by omega, h3, fun j hj1 hj2 => ?_⟩
      rcases Nat.eq_or_lt_of_le hj1 with rfl | hj
      · exact Bool.eq_false_iff.mpr hpa
      · exact h4 j hj hj2

/-- Specification of `findFirstIdx`: the result lies in `[a, b]`, satisfies
the predicate, and every earlier index in the range fails it. -/
theorem findFirstIdx_spec {p : ℕ → Bool} {a b r : ℕ}
    (h : findFirstIdx p a b = some r) :
    a ≤ r ∧ r ≤ b ∧ p r = true ∧ ∀ j, a ≤ j → j < r → p j = false := by
  obtain ⟨h1, h2, h3, h4⟩ := find?_range'_spec (b + 1 - a) a h
  exact ⟨h1, by omega, h3, h4⟩

/-- `findSome?` over a strictly descending list returns a value produced by
some element such that every larger element of the list produces `none`. -/
theorem findSome?_desc {α : Type} {f : ℕ → Option α} :
    ∀ {l : List ℕ}, l.Pairwise (· > ·) → ∀ {t : α}, l.findSome? f = some t →
      ∃ si, si ∈ l ∧ f si = some t ∧ ∀ sj, sj ∈ l → si < sj → f sj = none := by
  intro l
  induction l with
  | nil => intro _ t h; simp [List.findSome?] at h
  | cons x xs ih =>
    intro hp t h
    rw [List.findSome?_cons] at h
    have hgt : ∀ y ∈ xs, y < x := fun y hy => (List.pairwise_cons.mp hp).1 y hy
    cases hfx : f x with
    | some v =>
      rw [hfx] at h
      cases h
      refine ⟨x, List.mem_cons_self _ _, hfx, fun sj hsj hlt => ?_⟩
      rcases List.mem_cons.mp hsj with rfl | hmem
      · exact absurd hlt (Nat.lt_irrefl _)
      · exact absurd (hgt sj hmem) (Nat.not_lt_of_lt hlt)
    | none =>
      rw [hfx] at h
      obtain ⟨si, hmem, hfsi, hrest⟩ := ih (List.pairwise_cons.mp hp).2 h
      refine ⟨si, List.mem_cons_of_mem _ hmem, hfsi, fun sj hsj hlt => ?_⟩
      rcases List.mem_cons.mp hsj with rfl | hmem2
      · exact hfx
      · exact hrest sj hmem2 hlt

/-- The reversed filtered index range scanned by the detector is strictly
descending. -/
theorem sweeps_reverse_pairwise (n : ℕ) (p : ℕ → Bool) :
    (((List.range n).filter p).reverse).Pairwise (· > ·) := by
  rw [List.pairwise_reverse]
  exact ((List.pairwise_lt_range n).sublist (List.filter_sublist _)).imp (fun h => h)

/-- Every trade returned by one iteration of the sweep loop satisfies all
the guards of that iteration: a first-reclaim index in the bounded
lookahead range, the un-padded session-window check on the reclaim time,
the non-empty pre-sweep slice, the pre-sweep confirmation filter, the
positive-distance check, and the stop/target construction. -/
theorem trySweep_eq_some {w : List Bar} {startT endT day : ℤ} {dir : Dir}
    {L : ℚ} {si : ℕ} {t : Trade}
    (h : trySweep w startT endT day dir L si = some t) :
    ∃ ri, si + 1 ≤ ri ∧ ri ≤ min (si + RECLAIM_LOOKAHEAD) (w.length - 1) ∧
      reclaimCond dir L (w.getD ri default) = true ∧
      (∀ j, si + 1 ≤ j → j < ri → reclaimCond dir L (w.getD j default) = false) ∧
      t.entry_time = (w.getD ri default).t ∧
      startT ≤ t.entry_time ∧ t.entry_time ≤ endT ∧
      1 ≤ si ∧
      t.entry = (w.getD ri default).close ∧
      t.day = day ∧ t.direction = dir ∧
      (dir = .buy →
        pLe t.entry (npMax (preHighs w si)) = false ∧
        t.sl = (w.getD si default).low ∧
        pLe (pSub t.entry t.sl) (some 0) = false ∧
        t.tp = pAdd t.entry (pMul (some TP_MULT) (pSub t.entry t.sl))) ∧
      (dir = .sell →
        pGe t.entry (npMin (preLows w si)) = false ∧
        t.sl = (w.getD si default).high ∧
        pLe (pSub t.sl t.entry) (some 0) = false ∧
        t.tp = pSub t.entry (pMul (some TP_MULT) (pSub t.sl t.entry))) := by
  cases dir with
  | buy =>
    simp only [trySweep] at h
    split at h
    · exact absurd h (by simp)
    next her =>
    cases hri : findFirstIdx (fun j => reclaimCond Dir.buy L (w.getD j default))
        (si + 1) (min (si + RECLAIM_LOOKAHEAD) (w.length - 1)) with
    | none => rw [hri] at h; exact absurd h (by simp)
    | some ri =>
      rw [hri] at h
      simp only at h
      split at h
      next hwin =>
        split at h
        · exact absurd h (by simp)
        next hpre =>
        split at h
        · exact absurd h (by simp)
        next hfilter =>
        split at h
        · exact absurd h (by simp)
        next hdist =>
        obtain ⟨hlo, hhi, hcond, hfirst⟩ := findFirstIdx_spec hri
        cases h
        have hsi : 1 ≤ si := by
          by_contra hc
          apply hpre
          interval_cases si
          simp [preHighs]
        refine ⟨ri, hlo, hhi, hcond, hfirst, rfl, hwin.1, hwin.2, hsi, rfl, rfl, rfl,
          fun _ => ⟨by simpa using hfilter, rfl, by simpa using hdist, rfl⟩,
          fun h' => absurd h' (by decide)⟩
      · exact absurd h (by simp)
  | sell =>
    simp only [trySweep] at h
    split at h
    · exact absurd h (by simp)
    next her =>
    cases hri : findFirstIdx (fun j => reclaimCond Dir.sell L (w.getD j default))
        (si + 1) (min (si + RECLAIM_LOOKAHEAD) (w.length - 1)) with
    | none => rw [hri] at h; exact absurd h (by simp)
    | some ri =>
      rw [hri] at h
      simp only at h
      split at h
      next hwin =>
        split at h
        · exact absurd h (by simp)
        next hpre =>
        split at h
        · exact absurd h (by simp)
        next hfilter =>
        split at h
        · exact absurd h (by simp)
        next hdist =>
        obtain ⟨hlo, hhi, hcond, hfirst⟩ := findFirstIdx_spec hri
        cases h
        have hsi : 1 ≤ si := by
          by_contra hc
          apply hpre
          interval_cases si
          simp [preLows]
        refine ⟨ri, hlo, hhi, hcond, hfirst, rfl, hwin.1, hwin.2, hsi, rfl, rfl, rfl,
          fun h' => absurd h' (by decide),
          fun _ => ⟨by simpa using hfilter, rfl, by simpa using hdist, rfl⟩⟩
      · exact absurd h (by simp)

/-- Every trade returned by the per-direction scan: the level is real, the
trade comes from one sweep index, and every more recent sweep index fails
to qualify. -/
theorem detectDir_eq_some {w : List Bar} {startT endT day : ℤ} {dir : Dir}
    {level : Px} {t : Trade}
    (h : detectDir w startT endT day dir level = some t) :
    ∃ L si, level = some L ∧ si < w.length ∧
      sweepCond dir L (w.getD si default) = true ∧
      trySweep w startT endT day dir L si = some t ∧
      ∀ sj, sj < w.length → sweepCond dir L (w.getD sj default) = true →
        si < sj → trySweep w startT endT day dir L sj = none := by
  cases level with
  | none => exact absurd h (by simp [detectDir])
  | some L =>
    simp only [detectDir] at h
    obtain ⟨si, hmem, hfsi, hrest⟩ :=
      findSome?_desc (sweeps_reverse_pairwise w.length _) h
    rw [List.mem_reverse, List.mem_filter, List.mem_range] at hmem
    refine ⟨L, si, rfl, hmem.1, hmem.2, hfsi, fun sj h1 h2 h3 => ?_⟩
    exact hrest sj (by rw [List.mem_reverse, List.mem_filter, List.mem_range]; exact ⟨h1, h2⟩) h3

/-- The direction and day fields of a detected trade are the scanned
direction and date. -/
theorem detectDir_fields {w : List Bar} {startT endT day : ℤ} {dir : Dir}
    {level : Px} {t : Trade}
    (h : detectDir w startT endT day dir level = some t) :
    t.direction = dir ∧ t.day = day := by
  obtain ⟨L, si, _, _, _, htry, _⟩ := detectDir_eq_some h
  obtain ⟨ri, _, _, _, _, _, _, _, _, _, hday, hdir, _, _⟩ := trySweep_eq_some htry
  exact ⟨hdir, hday⟩

/-- Every trade emitted for a date comes from the per-direction scan run on
that date's padded window, with the level the order list pairs with the
trade's direction. -/
theorem mem_processDay {df1 df15 : List Bar} {day : ℤ} {t : Trade}
    (h : t ∈ processDay df1 df15 day) :
    ∃ lv, lookupLevels df15 day = some lv ∧
      (windowBars df1 day).isEmpty = false ∧
      t.day = day ∧
      detectDir (windowBars df1 day) (sessionStart day) (sessionEnd day) day
        t.direction (levelFor lv t.direction) = some t := by
  unfold processDay at h
  cases hlv : lookupLevels df15 day with
  | none => rw [hlv] at h; exact absurd h (by simp)
  | some lv =>
    rw [hlv] at h
    simp only at h
    split at h
    · exact absurd h (by simp)
    next hne =>
    rw [List.mem_filterMap] at h
    obtain ⟨p, hp_mem, hp_eq⟩ := h
    obtain ⟨hdir, hday⟩ := detectDir_fields hp_eq
    have hp : p.2 = levelFor lv p.1 := by
      cases hbias : biasFor df15 day <;>
        simp only [orderFor, List.mem_cons, List.not_mem_nil, or_false, hbias] at hp_mem <;>
        rcases hp_mem with rfl | rfl <;> rfl
    refine ⟨lv, rfl, by simpa using hne, hday, ?_⟩
    rw [hdir, ← hp]
    exact hp_eq

/-- Every trade of a detection pass comes from one scanned date, and is the
result of the per-direction scan for its own direction and day. -/
theorem mem_detectSignals {df1 df15 : List Bar} {t : Trade}
    (h : t ∈ detectSignals df1 df15) :
    t.day ∈ scanDates df1 ∧
      ∃ lv, lookupLevels df15 t.day = some lv ∧
        (windowBars df1 t.day).isEmpty = false ∧
        detectDir (windowBars df1 t.day) (sessionStart t.day) (sessionEnd t.day)
          t.day t.direction (levelFor lv t.direction) = some t := by
  unfold detectSignals at h
  rw [List.mem_flatMap] at h
  obtain ⟨day, hday_mem, ht⟩ := h
  obtain ⟨lv, hlv, hne, hday, hdet⟩ := mem_processDay ht
  subst hday
  exact ⟨hday_mem, lv, hlv, hne, hdet⟩

/-- If `pGt a (some L)` holds, `a` is a real value strictly above `L`. -/
theorem pGt_some_right {a : Px} {L : ℚ} (h : pGt a (some L) = true) :
    ∃ x, a = some x ∧ L < x := by
  cases a <;> simp [pGt] at h ⊢
  exact h

/-- If `pLt a (some L)` holds, `a` is a real value strictly below `L`. -/
theorem pLt_some_right {a : Px} {L : ℚ} (h : pLt a (some L) = true) :
    ∃ x, a = some x ∧ x < L := by
  cases a <;> simp [pLt] at h ⊢
  exact h

/-- A failed `dist <= 0` check on a real distance is a strict inequality. -/
theorem pLe_sub_zero_false {e s : ℚ}
    (h : pLe (pSub (some e) (some s)) (some 0) = false) : s < e := by
  simp [pSub, pLe, qsub_eq] at h
  linarith

/-- Target construction for buys evaluates to `entry + 3 × (entry − stop)`. -/
theorem tp_buy_eval (e s : ℚ) :
    pAdd (some e) (pMul (some TP_MULT) (pSub (some e) (some s))) =
      some (e + 3 * (e - s)) := by
  simp [pAdd, pMul, pSub, TP_MULT, qadd_eq, qsub_eq, qmul_eq]

/-- Target construction for sells evaluates to `entry − 3 × (stop − entry)`. -/
theorem tp_sell_eval (e s : ℚ) :
    pSub (some e) (pMul (some TP_MULT) (pSub (some s) (some e))) =
      some (e - 3 * (s - e)) := by
  simp [pSub, pMul, TP_MULT, qsub_eq, qmul_eq]

/-! ## Concrete witness data

A reference day (day number 19722 = 2023-12-31 IST) with high 2050 and
low 2040, one reference bar on the scan day itself (19723 = 2024-01-01,
outside US DST, so the session window is 20:00–22:00 IST), and a scan
series realizing a buy sweep of the prior-day low at index 3 with a
reclaim at index 4. -/

/-- The scan day of the witness data: 2024-01-01 (day number 19723). -/
def exDay : ℤ := 19723

/-- Minute timestamp within the witness scan day. -/
def mkT (m : ℤ) : ℤ := exDay * 1440 + m

/-- Witness reference series: prior-day high 2050 / low 2040, plus one bar
on the scan day so the levels dict has a key for it. -/
def df15ex : List Bar :=
  [⟨(exDay - 1) * 1440 + 600, some 2050, some 2040, some 2045⟩,
   ⟨exDay * 1440 + 600, some 2046, some 2044, some 2045⟩]

/-- Witness scan series: three pre-sweep bars, a sweep of 2040 at index 3
(low 2038), and a reclaim close 2041 at index 4 inside the session window. -/
def df1ex : List Bar :=
  [⟨mkT 1201, some 2040, some 2039, some 2039⟩,
   ⟨mkT 1202, some 2040, some 2039, some 2039⟩,
   ⟨mkT 1203, some 2040, some 2039, some 2040⟩,
   ⟨mkT 1204, some 2040, some 2038, some 2039⟩,
   ⟨mkT 1205, some 2042, some 2040, some 2041⟩]

/-- The single candidate the detector emits on the witness data. -/
def tradeEx : Trade := ⟨mkT 1205, .buy, some 2041, some 2038, some 2050, exDay⟩

/-! ## The claims -/

/-- C1: every candidate emitted by `detect_signals` has a strictly positive
entry/stop distance and a target exactly `TP_MULT = 3` times that distance
beyond the entry in the trade's favor: buys have `entry > stop` and
`target = entry + 3×(entry − stop)`, sells have `entry < stop` and
`target = entry − 3×(stop − entry)`; a candidate with non-positive
`|entry − stop|` is never emitted. -/
theorem emitted_trade_geometry (df1 df15 : List Bar) (t : Trade)
    (h : t ∈ detectSignals df1 df15) :
    (t.direction = Dir.buy → ∃ e s, t.entry = some e ∧ t.sl = some s ∧
      s < e ∧ t.tp = some (e + 3 * (e - s))) ∧
    (t.direction = Dir.sell → ∃ e s, t.entry = some e ∧ t.sl = some s ∧
      e < s ∧ t.tp = some (e - 3 * (s - e))) := by
  obtain ⟨-, lv, hlv, -, hdet⟩ := mem_detectSignals h
  obtain ⟨L, si, hlevel, hsi_len, hsweep, htry, -⟩ := detectDir_eq_some hdet
  obtain ⟨ri, h1, h2, hreclaim, h4, h5, h6, h7, h8, hentry, hday', hdir', hbuy, hsell⟩ :=
    trySweep_eq_some htry
  constructor
  · intro hb
    rw [hb] at hreclaim hsweep
    obtain ⟨hfilter, hsl, hdist, htp⟩ := hbuy hb
    simp only [reclaimCond] at hreclaim
    obtain ⟨e, he, heL⟩ := pGt_some_right hreclaim
    simp only [sweepCond] at hsweep
    obtain ⟨s, hs, hsL⟩ := pLt_some_right hsweep
    rw [hentry, he, hsl, hs] at hdist
    refine ⟨e, s, by rw [hentry, he], by rw [hsl, hs], pLe_sub_zero_false hdist, ?_⟩
    rw [htp, hentry, he, hsl, hs, tp_buy_eval]
  · intro hb
    rw [hb] at hreclaim hsweep
    obtain ⟨hfilter, hsl, hdist, htp⟩ := hsell hb
    simp only [reclaimCond] at hreclaim
    obtain ⟨e, he, heL⟩ := pLt_some_right hreclaim
    simp only [sweepCond] at hsweep
    obtain ⟨s, hs, hsL⟩ := pGt_some_right hsweep
    rw [hentry, he, hsl, hs] at hdist
    refine ⟨e, s, by rw [hentry, he], by rw [hsl, hs], pLe_sub_zero_false hdist, ?_⟩
    rw [htp, hentry, he, hsl, hs, tp_sell_eval]

set_option maxRecDepth 100000 in
/-- Witness for C1: the buy candidate of the witness data has entry 2041,
stop 2038, and target 2041 + 3×3 = 2050. -/
theorem emitted_trade_geometry_witness :
    ∃ e s, tradeEx.entry = some e ∧ tradeEx.sl = some s ∧ s < e ∧
      tradeEx.tp = some (e + 3 * (e - s)) :=
  (emitted_trade_geometry df1ex df15ex tradeEx (by decide)).1 rfl

/-- The day number of March `d` is `d − 1` days past March 1 of the same
year. -/
theorem daysFromCivil_march (y d : ℤ) :
    daysFromCivil y 3 d = daysFromCivil y 3 1 + (d - 1) := by
  unfold daysFromCivil
  norm_num
  ring

/-- C7: for every year, the computed daylight-saving start is the second
Sunday of March (a Sunday in the second week of March, and the first
Sunday on/after March 8) and the end is the first Sunday of November
(a Sunday within the first seven days of November, and the first Sunday
on/after November 1); DST activity holds exactly on the half-open interval
`[start, end)`; and for 2024 the start is 2024-03-10 and the end is
2024-11-03. -/
theorem dst_rule :
    (∀ y : ℤ,
      weekday (secondSundayOfMarch y) = 6 ∧
      daysFromCivil y 3 1 + 7 ≤ secondSundayOfMarch y ∧
      secondSundayOfMarch y ≤ daysFromCivil y 3 1 + 13 ∧
      (∀ e : ℤ, daysFromCivil y 3 8 ≤ e → e < secondSundayOfMarch y → weekday e ≠ 6) ∧
      weekday (firstSundayOfNovember y) = 6 ∧
      daysFromCivil y 11 1 ≤ firstSundayOfNovember y ∧
      firstSundayOfNovember y ≤ daysFromCivil y 11 1 + 6 ∧
      (∀ e : ℤ, daysFromCivil y 11 1 ≤ e → e < firstSundayOfNovember y → weekday e ≠ 6)) ∧
    (∀ d : ℤ, isUsDst d = true ↔
      (secondSundayOfMarch (yearOfDay d) ≤ d ∧ d < firstSundayOfNovember (yearOfDay d))) ∧
    secondSundayOfMarch 2024 = daysFromCivil 2024 3 10 ∧
    firstSundayOfNovember 2024 = daysFromCivil 2024 11 3 := by
  refine ⟨fun y => ?_, fun d => by simp [isUsDst], by decide, by decide⟩
  have hm : daysFromCivil y 3 8 = daysFromCivil y 3 1 + 7 := by
    rw [daysFromCivil_march]; norm_num
  simp only [secondSundayOfMarch, firstSundayOfNovember, weekday]
  refine ⟨by omega, by omega, by omega, fun e h1 h2 => by omega,
    by omega, by omega, by omega, fun e h1 h2 => by omega⟩

/-- Witness for C7: 2024-06-01 is inside the DST window, and the 2024 DST
start falls on weekday Sunday. -/
theorem dst_rule_witness :
    isUsDst (daysFromCivil 2024 6 1) = true ∧
    weekday (secondSundayOfMarch 2024) = 6 :=
  ⟨(dst_rule.2.1 (daysFromCivil 2024 6 1)).mpr (by decide), (dst_rule.1 2024).1⟩

/-- C2 (amended): for every date `d`, if no reference bars are dated `d−1`
then `d` has no levels and no candidate is emitted for `d`; when reference
bars dated `d−1` exist AND `d` itself appears among the reference series'
dates, the levels of `d` are exactly the skipna max of High and min of Low
over the bars dated `d−1`, computed from that per-date partition alone. -/
theorem prev_day_levels_partition (df1 df15 : List Bar) (d : ℤ) :
    (barsOnDate df15 (d - 1) = [] →
      lookupLevels df15 d = none ∧ ∀ t ∈ detectSignals df1 df15, t.day ≠ d) ∧
    (barsOnDate df15 (d - 1) ≠ [] → d ∈ df15.map (fun b => dateOf b.t) →
      lookupLevels df15 d =
        some ⟨pdMax ((barsOnDate df15 (d - 1)).map (fun b => b.high)),
              pdMin ((barsOnDate df15 (d - 1)).map (fun b => b.low))⟩) := by
  constructor
  · intro hempty
    have hnone : lookupLevels df15 d = none := by
      unfold lookupLevels
      split
      · rw [hempty]; simp
      · rfl
    refine ⟨hnone, fun t ht hd => ?_⟩
    obtain ⟨-, lv, hlv, -⟩ := mem_detectSignals ht
    rw [hd, hnone] at hlv
    cases hlv
  · intro hne hmem
    unfold lookupLevels
    rw [if_pos hmem, if_neg (by simpa using hne)]

/-- Reference series of the C2 counterexample: a single bar on day 0. -/
def df15c2 : List Bar := [⟨600, some 1, some 1, some 1⟩]

/-- Scan series of the C2 counterexample: a single bar on day 1. -/
def df1c2 : List Bar := [⟨1 * 1440 + 600, some 1, some 1, some 1⟩]

/-- Counterexample to C2 as stated: day 1 appears in the scan series and
reference bars dated 0 exist, yet the levels dict has no entry for day 1,
because the dict is keyed by the dates of the *reference* series and day 1
has no reference bars. -/
theorem prev_day_levels_requires_ref_date :
    ¬ (∀ (df1 df15 : List Bar) (d : ℤ), d ∈ df1.map (fun b => dateOf b.t) →
        barsOnDate df15 (d - 1) ≠ [] →
        ∃ lv, lookupLevels df15 d = some lv) := by
  intro h
  obtain ⟨lv, hlv⟩ := h df1c2 df15c2 1 (by decide) (by decide)
  have hnone : lookupLevels df15c2 1 = none := by decide
  rw [hnone] at hlv
  cases hlv

set_option maxRecDepth 100000 in
/-- Witness for C2 (amended): on the witness data the prior-day levels of
the scan day are high 2050 / low 2040, and a day with no prior reference
bars has no levels and no candidate. -/
theorem prev_day_levels_partition_witness :
    lookupLevels df15ex exDay = some ⟨some 2050, some 2040⟩ ∧
    (lookupLevels df15ex (exDay - 5) = none ∧
      ∀ t ∈ detectSignals df1ex df15ex, t.day ≠ exDay - 5) := by
  constructor
  · have h := (prev_day_levels_partition df1ex df15ex exDay).2
      (by decide) (by decide)
    rw [h]
    decide
  · exact (prev_day_levels_partition df1ex df15ex (exDay - 5)).1 (by decide)

/-- C3 (amended): the bias of a date is neutral when fewer than 3 reference
bars fall on it; otherwise it is bull exactly when the last close minus the
third-from-last close (`iloc[-1] - iloc[-3]`, i.e. index `len − 3`, not
index `last − 3`) is strictly positive with both closes real, and bear in
every other case. -/
theorem bias_rule (df15 : List Bar) (d : ℤ) :
    ((barsOnDate df15 d).length < 3 → biasFor df15 d = Bias.neutral) ∧
    ((barsOnDate df15 d).length ≥ 3 →
      (biasFor df15 d = Bias.bull ↔
        pGt (pSub (((barsOnDate df15 d).map (fun b => b.close)).getD
                    ((barsOnDate df15 d).length - 1) none)
                  (((barsOnDate df15 d).map (fun b => b.close)).getD
                    ((barsOnDate df15 d).length - 3) none))
            (some 0) = true) ∧
      (biasFor df15 d ≠ Bias.bull → biasFor df15 d = Bias.bear)) := by
  have hb : biasFor df15 d =
      if (barsOnDate df15 d).length ≥ 3 then
        (if pGt (pSub (((barsOnDate df15 d).map (fun b => b.close)).getD
                        (((barsOnDate df15 d).map (fun b => b.close)).length - 1) none)
                      (((barsOnDate df15 d).map (fun b => b.close)).getD
                        (((barsOnDate df15 d).map (fun b => b.close)).length - 3) none))
              (some 0)
         then Bias.bull else Bias.bear)
      else Bias.neutral := rfl
  rw [hb, List.length_map]
  constructor
  · intro hlt
    rw [if_neg (by omega)]
  · intro hge
    rw [if_pos hge]
    by_cases hc : pGt (pSub (((barsOnDate df15 d).map (fun b => b.close)).getD
                    ((barsOnDate df15 d).length - 1) none)
                  (((barsOnDate df15 d).map (fun b => b.close)).getD
                    ((barsOnDate df15 d).length - 3) none))
            (some 0) = true
    · rw [if_pos hc]
      exact ⟨iff_of_true rfl hc, fun h => absurd rfl h⟩
    · rw [if_neg hc]
      refine ⟨⟨fun h => absurd h (by decide), fun h => absurd h hc⟩, fun _ => rfl⟩

/-- Reference series of the C3 counterexample: four bars on day 0 with
closes 2040, 2045, 2041, 2042. -/
def df15c3 : List Bar :=
  [⟨60, some 2041, some 2039, some 2040⟩,
   ⟨120, some 2046, some 2044, some 2045⟩,
   ⟨180, some 2042, some 2040, some 2041⟩,
   ⟨240, some 2043, some 2041, some 2042⟩]

/-- Counterexample to C3 as stated: with closes 2040, 2045, 2041, 2042 the
claim's difference `close[last] − close[last−3] = 2042 − 2040 = 2 > 0`
demands bull, but the code computes `iloc[-1] − iloc[-3] = 2042 − 2045 < 0`
and yields bear. -/
theorem bias_uses_third_from_last_close :
    ¬ (∀ (df15 : List Bar) (d : ℤ),
        (barsOnDate df15 d).length ≥ 3 →
        (biasFor df15 d = Bias.bull ↔
          pGt (pSub (((barsOnDate df15 d).map (fun b => b.close)).getD
                      ((barsOnDate df15 d).length - 1) none)
                    (((barsOnDate df15 d).map (fun b => b.close)).getD
                      ((barsOnDate df15 d).length - 1 - 3) none))
              (some 0) = true)) := by
  intro h
  have h2 := (h df15c3 0 (by decide)).mpr (by decide)
  exact absurd h2 (by decide)

/-- Witness for C3 (amended): on the counterexample data the bias is bear
and the code's own difference is non-positive; on a two-bar day the bias is
neutral. -/
theorem bias_rule_witness :
    (biasFor df15c3 0 = Bias.bull ↔
      pGt (pSub (((barsOnDate df15c3 0).map (fun b => b.close)).getD
                  ((barsOnDate df15c3 0).length - 1) none)
                (((barsOnDate df15c3 0).map (fun b => b.close)).getD
                  ((barsOnDate df15c3 0).length - 3) none))
          (some 0) = true) ∧
    biasFor df15ex exDay = Bias.neutral := by
  refine ⟨((bias_rule df15c3 0).2 (by decide)).1, ?_⟩
  exact (bias_rule df15ex exDay).1 (by decide)

/-- C4: at most one candidate per direction per date (two candidates of a
pass sharing day and direction are equal), and every emitted candidate
derives from the most recent qualifying sweep: it comes from a sweep index
`si`, and every more recent sweep index fails to qualify. -/
theorem most_recent_sweep_wins (df1 df15 : List Bar) :
    (∀ t1 ∈ detectSignals df1 df15, ∀ t2 ∈ detectSignals df1 df15,
      t1.day = t2.day → t1.direction = t2.direction → t1 = t2) ∧
    (∀ t ∈ detectSignals df1 df15,
      ∃ lv L si, lookupLevels df15 t.day = some lv ∧
        levelFor lv t.direction = some L ∧
        si < (windowBars df1 t.day).length ∧
        sweepCond t.direction L ((windowBars df1 t.day).getD si default) = true ∧
        trySweep (windowBars df1 t.day) (sessionStart t.day) (sessionEnd t.day)
          t.day t.direction L si = some t ∧
        ∀ sj, sj < (windowBars df1 t.day).length →
          sweepCond t.direction L ((windowBars df1 t.day).getD sj default) = true →
          si < sj →
          trySweep (windowBars df1 t.day) (sessionStart t.day) (sessionEnd t.day)
            t.day t.direction L sj = none) := by
  constructor
  · intro t1 h1 t2 h2 hday hdir
    obtain ⟨-, lv1, hlv1, -, hdet1⟩ := mem_detectSignals h1
    obtain ⟨-, lv2, hlv2, -, hdet2⟩ := mem_detectSignals h2
    rw [← hday, ← hdir] at hdet2
    rw [← hday] at hlv2
    rw [hlv1] at hlv2
    injection hlv2 with hlv
    rw [← hlv] at hdet2
    rw [hdet1] at hdet2
    injection hdet2
  · intro t ht
    obtain ⟨-, lv, hlv, -, hdet⟩ := mem_detectSignals ht
    obtain ⟨L, si, hlevel, hlen, hsweep, htry, hrest⟩ := detectDir_eq_some hdet
    exact ⟨lv, L, si, hlv, hlevel, hlen, hsweep, htry, hrest⟩

set_option maxRecDepth 100000 in
/-- Witness for C4: the witness trade derives from the unique qualifying
sweep of its window. -/
theorem most_recent_sweep_wins_witness :
    ∃ lv L si, lookupLevels df15ex tradeEx.day = some lv ∧
      levelFor lv tradeEx.direction = some L ∧
      si < (windowBars df1ex tradeEx.day).length ∧
      sweepCond tradeEx.direction L ((windowBars df1ex tradeEx.day).getD si default) = true ∧
      trySweep (windowBars df1ex tradeEx.day) (sessionStart tradeEx.day)
        (sessionEnd tradeEx.day) tradeEx.day tradeEx.direction L si = some tradeEx ∧
      ∀ sj, sj < (windowBars df1ex tradeEx.day).length →
        sweepCond tradeEx.direction L ((windowBars df1ex tradeEx.day).getD sj default) = true →
        si < sj →
        trySweep (windowBars df1ex tradeEx.day) (sessionStart tradeEx.day)
          (sessionEnd tradeEx.day) tradeEx.day tradeEx.direction L sj = none :=
  (most_recent_sweep_wins df1ex df15ex).2 tradeEx (by decide)

/-- C5: every emitted candidate's entry bar (the reclaim bar) is the first
bar among the at most `RECLAIM_LOOKAHEAD = 3` bars following the sweep bar
whose close is beyond the level against the sweep, and its timestamp lies
inside the un-padded session window `[start, end]`, although the scanned
window holds exactly the bars of the session window padded by 60 minutes
on each side. -/
theorem reclaim_window_and_session (df1 df15 : List Bar) (t : Trade)
    (h : t ∈ detectSignals df1 df15) :
    ∃ lv L si ri,
      lookupLevels df15 t.day = some lv ∧
      levelFor lv t.direction = some L ∧
      si < (windowBars df1 t.day).length ∧
      sweepCond t.direction L ((windowBars df1 t.day).getD si default) = true ∧
      trySweep (windowBars df1 t.day) (sessionStart t.day) (sessionEnd t.day)
        t.day t.direction L si = some t ∧
      (∀ b, b ∈ windowBars df1 t.day ↔ b ∈ df1 ∧
        sessionStart t.day - 60 ≤ b.t ∧ b.t ≤ sessionEnd t.day + 60) ∧
      si + 1 ≤ ri ∧
      ri ≤ min (si + RECLAIM_LOOKAHEAD) ((windowBars df1 t.day).length - 1) ∧
      reclaimCond t.direction L ((windowBars df1 t.day).getD ri default) = true ∧
      (∀ j, si + 1 ≤ j → j < ri →
        reclaimCond t.direction L ((windowBars df1 t.day).getD j default) = false) ∧
      t.entry_time = ((windowBars df1 t.day).getD ri default).t ∧
      sessionStart t.day ≤ t.entry_time ∧ t.entry_time ≤ sessionEnd t.day := by
  obtain ⟨-, lv, hlv, -, hdet⟩ := mem_detectSignals h
  obtain ⟨L, si, hlevel, hlen, hsweep, htry, -⟩ := detectDir_eq_some hdet
  obtain ⟨ri, h1, h2, h3, h4, h5, h6, h7, -⟩ := trySweep_eq_some htry
  refine ⟨lv, L, si, ri, hlv, hlevel, hlen, hsweep, htry, ?_, h1, h2, h3, h4, h5, h6, h7⟩
  intro b
  simp [windowBars, List.mem_filter]

set_option maxRecDepth 100000 in
/-- Witness for C5: the witness trade's entry bar is the reclaim bar at
window index 4, one bar after its sweep, inside the un-padded 20:00–22:00
IST window. -/
theorem reclaim_window_and_session_witness :
    ∃ lv L si ri,
      lookupLevels df15ex tradeEx.day = some lv ∧
      levelFor lv tradeEx.direction = some L ∧
      si < (windowBars df1ex tradeEx.day).length ∧
      sweepCond tradeEx.direction L ((windowBars df1ex tradeEx.day).getD si default) = true ∧
      trySweep (windowBars df1ex tradeEx.day) (sessionStart tradeEx.day)
        (sessionEnd tradeEx.day) tradeEx.day tradeEx.direction L si = some tradeEx ∧
      (∀ b, b ∈ windowBars df1ex tradeEx.day ↔ b ∈ df1ex ∧
        sessionStart tradeEx.day - 60 ≤ b.t ∧ b.t ≤ sessionEnd tradeEx.day + 60) ∧
      si + 1 ≤ ri ∧
      ri ≤ min (si + RECLAIM_LOOKAHEAD) ((windowBars df1ex tradeEx.day).length - 1) ∧
      reclaimCond tradeEx.direction L ((windowBars df1ex tradeEx.day).getD ri default) = true ∧
      (∀ j, si + 1 ≤ j → j < ri →
        reclaimCond tradeEx.direction L ((windowBars df1ex tradeEx.day).getD j default) = false) ∧
      tradeEx.entry_time = ((windowBars df1ex tradeEx.day).getD ri default).t ∧
      sessionStart tradeEx.day ≤ tradeEx.entry_time ∧
      tradeEx.entry_time ≤ sessionEnd tradeEx.day :=
  reclaim_window_and_session df1ex df15ex tradeEx (by decide)

/-- The pre-sweep slice is non-empty exactly when the sweep index is
positive. -/
theorem preHighs_ne_nil {w : List Bar} {si : ℕ} (h : 1 ≤ si) :
    preHighs w si ≠ [] := by
  have hlen : (preHighs w si).length = si - (si - 3) := by
    simp [preHighs]
  intro hc
  rw [hc] at hlen
  simp at hlen
  omega

/-- The pre-sweep slice of lows is non-empty exactly when the sweep index
is positive. -/
theorem preLows_ne_nil {w : List Bar} {si : ℕ} (h : 1 ≤ si) :
    preLows w si ≠ [] := by
  have hlen : (preLows w si).length = si - (si - 3) := by
    simp [preLows]
  intro hc
  rw [hc] at hlen
  simp at hlen
  omega

/-- C6 (amended): every emitted candidate derives from a sweep index with a
non-empty pre-sweep slice (the up to 3 bars before it), and its reclaim
close `c` fails the numpy comparison `c <= max(pre highs)` (buy) resp.
`c >= min(pre lows)` (sell).  Whenever that numpy extreme is a real number
(no NaN in the slice) this makes the close strictly beyond it, so a close
exactly equal to the extreme is rejected; but when the slice contains a NaN
the numpy extreme is NaN, the comparison is vacuously false, and the filter
imposes no constraint. -/
theorem pre_sweep_filter (df1 df15 : List Bar) (t : Trade)
    (h : t ∈ detectSignals df1 df15) :
    ∃ lv L si, lookupLevels df15 t.day = some lv ∧
      levelFor lv t.direction = some L ∧
      trySweep (windowBars df1 t.day) (sessionStart t.day) (sessionEnd t.day)
        t.day t.direction L si = some t ∧
      1 ≤ si ∧
      preHighs (windowBars df1 t.day) si ≠ [] ∧
      preLows (windowBars df1 t.day) si ≠ [] ∧
      (t.direction = Dir.buy →
        pLe t.entry (npMax (preHighs (windowBars df1 t.day) si)) = false ∧
        ∀ m, npMax (preHighs (windowBars df1 t.day) si) = some m →
          ∃ e, t.entry = some e ∧ m < e) ∧
      (t.direction = Dir.sell →
        pGe t.entry (npMin (preLows (windowBars df1 t.day) si)) = false ∧
        ∀ m, npMin (preLows (windowBars df1 t.day) si) = some m →
          ∃ e, t.entry = some e ∧ e < m) := by
  obtain ⟨-, lv, hlv, -, hdet⟩ := mem_detectSignals h
  obtain ⟨L, si, hlevel, -, hsweep, htry, -⟩ := detectDir_eq_some hdet
  obtain ⟨ri, h1, h2, hreclaim, h4, h5, h6, h7, hsi, hentry, hday', hdir', hbuy, hsell⟩ :=
    trySweep_eq_some htry
  refine ⟨lv, L, si, hlv, hlevel, htry, hsi, preHighs_ne_nil hsi, preLows_ne_nil hsi,
    fun hb => ?_, fun hs => ?_⟩
  · obtain ⟨hfilter, -, -, -⟩ := hbuy hb
    refine ⟨hfilter, fun m hm => ?_⟩
    rw [hb] at hreclaim
    simp only [reclaimCond] at hreclaim
    obtain ⟨e, he, -⟩ := pGt_some_right hreclaim
    rw [hentry, he, hm] at hfilter
    exact ⟨e, by rw [hentry, he], pLe_some_eq_false_iff.mp hfilter⟩
  · obtain ⟨hfilter, -, -, -⟩ := hsell hs
    refine ⟨hfilter, fun m hm => ?_⟩
    rw [hs] at hreclaim
    simp only [reclaimCond] at hreclaim
    obtain ⟨e, he, -⟩ := pLt_some_right hreclaim
    rw [hentry, he, hm] at hfilter
    exact ⟨e, by rw [hentry, he], pGe_some_eq_false_iff.mp hfilter⟩

/-- Scan series of the C6 counterexample: identical to the witness scan
series except that the first pre-sweep bar's high is NaN and the second is
2042, above the eventual reclaim close 2041. -/
def df1c6 : List Bar :=
  [⟨mkT 1201, none, some 2040, some 2039⟩,
   ⟨mkT 1202, some 2042, some 2040, some 2039⟩,
   ⟨mkT 1203, some 2040, some 2040, some 2040⟩,
   ⟨mkT 1204, some 2040, some 2038, some 2039⟩,
   ⟨mkT 1205, some 2042, some 2040, some 2041⟩]

set_option maxRecDepth 100000 in
/-- Counterexample to C6 as stated: on `df1c6` the candidate is still
emitted from the only sweep index 3, although its reclaim close 2041 does
not strictly exceed the pre-slice high 2042 — the NaN high at index 0 makes
the numpy maximum NaN, so the rejection comparison is vacuously false and
the pre-sweep filter is bypassed. -/
theorem pre_sweep_filter_nan_bypass :
    detectSignals df1c6 df15ex = [tradeEx] ∧
    (List.range (windowBars df1c6 exDay).length).filter
      (fun i => sweepCond Dir.buy 2040 ((windowBars df1c6 exDay).getD i default)) = [3] ∧
    preHighs (windowBars df1c6 exDay) 3 = [none, some 2042, some 2040] ∧
    tradeEx.entry = some 2041 ∧
    npMax (preHighs (windowBars df1c6 exDay) 3) = none ∧
    pGt tradeEx.entry (npMax (preHighs (windowBars df1c6 exDay) 3)) = false ∧
    ¬ ((2042 : ℚ) < 2041) := by decide

set_option maxRecDepth 100000 in
/-- Witness for C6 (amended): on the NaN-free witness data the emitted
trade's reclaim close strictly exceeds the real pre-slice maximum. -/
theorem pre_sweep_filter_witness :
    ∃ lv L si, lookupLevels df15ex tradeEx.day = some lv ∧
      levelFor lv tradeEx.direction = some L ∧
      trySweep (windowBars df1ex tradeEx.day) (sessionStart tradeEx.day)
        (sessionEnd tradeEx.day) tradeEx.day tradeEx.direction L si = some tradeEx ∧
      1 ≤ si ∧
      preHighs (windowBars df1ex tradeEx.day) si ≠ [] ∧
      preLows (windowBars df1ex tradeEx.day) si ≠ [] ∧
      (tradeEx.direction = Dir.buy →
        pLe tradeEx.entry (npMax (preHighs (windowBars df1ex tradeEx.day) si)) = false ∧
        ∀ m, npMax (preHighs (windowBars df1ex tradeEx.day) si) = some m →
          ∃ e, tradeEx.entry = some e ∧ m < e) ∧
      (tradeEx.direction = Dir.sell →
        pGe tradeEx.entry (npMin (preLows (windowBars df1ex tradeEx.day) si)) = false ∧
        ∀ m, npMin (preLows (windowBars df1ex tradeEx.day) si) = some m →
          ∃ e, tradeEx.entry = some e ∧ e < m) :=
  pre_sweep_filter df1ex df15ex tradeEx (by decide)

/-- C8: the detection core returns empty/neutral results for expected
missing data instead of raising: an empty scan series yields the empty
candidate list, and a NaN reference level for a direction yields no
candidate of that direction for that date.  (The embedding is total, so no
run can raise.) -/
theorem missing_data_safe (df1 df15 : List Bar) (d : ℤ) (lv : Levels) (dir : Dir) :
    detectSignals [] df15 = [] ∧
    (lookupLevels df15 d = some lv → levelFor lv dir = none →
      ∀ t ∈ detectSignals df1 df15, ¬ (t.day = d ∧ t.direction = dir)) := by
  refine ⟨rfl, fun hlv hnone t ht hc => ?_⟩
  obtain ⟨hday, hdir⟩ := hc
  obtain ⟨-, lv2, hlv2, -, hdet⟩ := mem_detectSignals ht
  rw [hday, hlv] at hlv2
  injection hlv2 with h2
  rw [hdir, ← h2, hnone] at hdet
  cases hdet

/-- Reference series of the C8 witness: the prior-day lows are all NaN, so
`PDL` is NaN while `PDH` is 2050. -/
def df15w : List Bar :=
  [⟨(exDay - 1) * 1440 + 600, some 2050, none, some 2045⟩,
   ⟨exDay * 1440 + 600, some 2046, some 2044, some 2045⟩]

set_option maxRecDepth 100000 in
/-- Witness for C8: the empty scan series yields no candidates, and with a
NaN `PDL` no buy candidate is emitted for the scan day. -/
theorem missing_data_safe_witness :
    detectSignals [] df15w = [] ∧
    ∀ t ∈ detectSignals df1ex df15w, ¬ (t.day = exDay ∧ t.direction = Dir.buy) := by
  have h := missing_data_safe df1ex df15w exDay ⟨some 2050, none⟩ Dir.buy
  exact ⟨h.1, h.2 (by decide) rfl⟩

/-- Appending a row never turns a readable or absent store into an
unparseable one. -/
theorem appendRow_not_corrupt {s : CsvState} {i : ℤ × Dir × Px}
    (h : s ≠ CsvState.corrupt) : appendRow s i ≠ CsvState.corrupt := by
  cases s <;> simp [appendRow] at *

/-- A recorded identity stays recorded when further rows are appended. -/
theorem alreadySeen_appendRow {s : CsvState} {i j : ℤ × Dir × Px}
    (hseen : alreadySeen s i = true) :
    alreadySeen (appendRow s j) i = true := by
  cases s <;> simp [alreadySeen, appendRow] at *
  exact Or.inl hseen

/-- An identity just appended to a non-corrupt store is recorded. -/
theorem alreadySeen_appendRow_self {s : CsvState} {i : ℤ × Dir × Px}
    (h : s ≠ CsvState.corrupt) : alreadySeen (appendRow s i) i = true := by
  cases s <;> simp [alreadySeen, appendRow] at *

/-- The candidate loop never turns a readable or absent store into an
unparseable one. -/
theorem runPass_not_corrupt {cands : List Trade} :
    ∀ {s : CsvState}, s ≠ CsvState.corrupt → (runPass s cands).2 ≠ CsvState.corrupt := by
  induction cands with
  | nil => intro s h; exact h
  | cons c cs ih =>
    intro s h
    rw [runPass]
    split
    · exact ih h
    · exact ih (appendRow_not_corrupt h)

/-- A recorded identity stays recorded across a whole candidate loop. -/
theorem runPass_preserves_seen {cands : List Trade} {i : ℤ × Dir × Px} :
    ∀ {s : CsvState}, alreadySeen s i = true →
      alreadySeen (runPass s cands).2 i = true := by
  induction cands with
  | nil => intro s h; exact h
  | cons c cs ih =>
    intro s h
    rw [runPass]
    split
    · exact ih h
    · exact ih (alreadySeen_appendRow h)

/-- After a candidate loop over a non-corrupt store, every processed
candidate's identity is recorded. -/
theorem runPass_all_seen {cands : List Trade} :
    ∀ {s : CsvState}, s ≠ CsvState.corrupt →
      ∀ c ∈ cands, alreadySeen (runPass s cands).2 (sigId c) = true := by
  induction cands with
  | nil => intro s h c hc; cases hc
  | cons c0 cs ih =>
    intro s h c hc
    rw [runPass]
    rcases List.mem_cons.mp hc with rfl | hmem
    · split
      next hseen => exact runPass_preserves_seen hseen
      next hseen => exact runPass_preserves_seen (alreadySeen_appendRow_self h)
    · split
      · exact ih h c hmem
      · exact ih (appendRow_not_corrupt h) c hmem

/-- A candidate loop over a store that already records every candidate
emits nothing and leaves the store unchanged. -/
theorem runPass_of_all_seen {cands : List Trade} :
    ∀ {s : CsvState}, (∀ c ∈ cands, alreadySeen s (sigId c) = true) →
      runPass s cands = ([], s) := by
  induction cands with
  | nil => intro s _; rfl
  | cons c cs ih =>
    intro s h
    rw [runPass, if_pos (h c (List.mem_cons_self c cs))]
    exact ih (fun c2 hc2 => h c2 (List.mem_cons_of_mem c hc2))

/-- C9: detection and deduplication are idempotent — `detect_signals` is a
pure function of its inputs, the candidate identity is the deterministic
key `(entry_time, direction, entry)`, and re-running the candidate loop on
the same candidates after a first run over a readable (non-corrupt) store
emits zero novel candidates. -/
theorem detection_idempotent (df1 df15 : List Bar) (s : CsvState)
    (cands : List Trade) :
    detectSignals df1 df15 = detectSignals df1 df15 ∧
    (∀ c : Trade, sigId c = (c.entry_time, c.direction, c.entry)) ∧
    (s ≠ CsvState.corrupt → (runPass (runPass s cands).2 cands).1 = []) := by
  refine ⟨rfl, fun c => rfl, fun h => ?_⟩
  rw [runPass_of_all_seen (runPass_all_seen h)]

set_option maxRecDepth 100000 in
/-- Witness for C9: after recording the witness trade, re-running the loop
on it emits nothing. -/
theorem detection_idempotent_witness :
    (runPass (runPass (CsvState.table []) [tradeEx]).2 [tradeEx]).1 = [] :=
  (detection_idempotent df1ex df15ex (CsvState.table []) [tradeEx]).2.2 (by decide)

/-- C10: when the persisted CSV is unreadable the duplicate check is
bypassed — every candidate is treated as novel (notified and appended),
the store stays unreadable, and a second run over the same candidates
emits all of them again, so duplicate emission is possible whenever the
identity store cannot be parsed. -/
theorem corrupt_store_emits_duplicates (cands : List Trade) :
    runPass CsvState.corrupt cands = (cands, CsvState.corrupt) ∧
    (runPass (runPass CsvState.corrupt cands).2 cands).1 = cands := by
  have h : ∀ cs : List Trade, runPass CsvState.corrupt cs = (cs, CsvState.corrupt) := by
    intro cs
    induction cs with
    | nil => rfl
    | cons c cs ih => rw [runPass, if_neg (by simp [alreadySeen])]; simp [appendRow, ih]
  refine ⟨h cands, ?_⟩
  rw [h cands]
  rw [h cands]

end CloudSlrm
